import Mathlib

/-!
Verification development for the terminal front-end of the MP1000 emulator
(`examples/ascii/mp1000-ascii.c`).  The file shallowly embeds the data model
and the operations of that program: the host-key translation performed in
`main`, the per-cell glyph/color mapping of the render pass, the color-pair
registration of `init_mp1000_colors`, and the main execute/poll/render/sleep
loop, and proves the stated properties about them.
-/

set_option autoImplicit false
set_option maxRecDepth 4096

namespace MP1000Ascii

/-! ### Input translation (main, lines 147-173)

The C code reads one key with `getch`, remaps a fixed set of control keys in a
`switch`, lets three keys reassign the speed preset without consuming the
character, inverts letter case for codes above 32, and injects the result as a
key press plus release when it is below 256. -/

/-- The fixed control-key `switch` cases of `main`: ENTER (10) to 0x0D,
BACKSPACE (127) to 0x01, ESCAPE (27) to 0x03, LEFT (260) to 0x08,
RIGHT (261) to 0x09, UP (259) to 0x0B, DOWN (258) to 0x0A; every other
code is left unchanged. -/
def ctrlMap (ch : Nat) : Nat :=
  if ch = 10 then 0x0D
  else if ch = 127 then 0x01
  else if ch = 27 then 0x03
  else if ch = 260 then 0x08
  else if ch = 261 then 0x09
  else if ch = 259 then 0x0B
  else if ch = 258 then 0x0A
  else ch

/-- `islower` on ASCII codes: true exactly for codes 97-122. -/
def isLowerCode (c : Nat) : Bool := 97 ≤ c && c ≤ 122

/-- `isupper` on ASCII codes: true exactly for codes 65-90. -/
def isUpperCode (c : Nat) : Bool := 65 ≤ c && c ≤ 90

/-- Letter-case inversion: `toupper` on lowercase, `tolower` on uppercase,
identity elsewhere (the body of the `if (ch > 32)` block of `main`). -/
def caseInvert (c : Nat) : Nat :=
  if isLowerCode c then c - 32
  else if isUpperCode c then c + 32
  else c

/-- Case processing as guarded in `main`: applied only to codes above 32. -/
def caseProcess (ch : Nat) : Nat :=
  if 32 < ch then caseInvert ch else ch

/-- Letters: lowercase or uppercase ASCII codes. -/
def isLetterCode (c : Nat) : Bool := isLowerCode c || isUpperCode c

/-- The full host-key translation of `main`: control-key table first, then
case processing for codes above 32, then the `ch < 256` acceptance gate.
Rejected codes yield `none` and inject nothing. -/
def translate (ch : Nat) : Option Nat :=
  let c := caseProcess (ctrlMap ch)
  if c < 256 then some c else none

/-- Speed-preset reassignment by the same `switch`: the three speed keys
(93 is the right bracket, 39 the apostrophe, 47 the slash) set the per-frame
microsecond budget to 0, 2 (truncated 1900000/894750) and 33 (truncated
30000000/894750); every other code leaves it unchanged. -/
def speedUpdate (ch speed : Nat) : Nat :=
  if ch = 93 then 0
  else if ch = 39 then 2
  else if ch = 47 then 33
  else speed

/-- A machine-facing key event (`mp1000_key_down` / `mp1000_key_up`). -/
inductive KeyEvent where
  | down (code : Nat)
  | up (code : Nat)
deriving DecidableEq, Repr

/-- Key events injected for one polled host code: a press immediately
followed by a release of the translated code, or nothing on rejection. -/
def injectEvents (ch : Nat) : List KeyEvent :=
  match translate ch with
  | some c => [KeyEvent.down c, KeyEvent.up c]
  | none => []

/-- One iteration's key handling: `getch` either returns no event (`ERR`) or
one host code, which updates the speed preset and is injected when accepted.
Returns the new speed preset and the machine-facing key-event trace. -/
def handleKey (input : Option Nat) (speed : Nat) : Nat × List KeyEvent :=
  match input with
  | none => (speed, [])
  | some ch => (speedUpdate ch speed, injectEvents ch)


/-! ### Static tables (font_map, unicode_map, unicode_map2, colors) -/

/-- `font_map`: conversion table from the 64 font indices to ASCII
(the x at index 28 stands for the pound sign). -/
def fontMap : List Char :=
  "@ABCDEFGHIJKLMNOPQRSTUVWXYZ[x]   !\"#$%&`()*+,-./0123456789:;<=>?".toList

/-- `colors`: map from the 16 machine color numbers to xterm-256color codes. -/
def colors : List Nat :=
  [71, 185, 18, 88, 231, 73, 54, 136, 16, 16, 16, 16, 16, 16, 16, 16]

/-- `unicode_map`: left-column quadrant glyph for each 4-bit pattern. -/
def unicodeMap : List String :=
  [" ", " ", "▄", "▄", " ", " ", "▄", "▄", "▀", "▀", "█", "█", "▀", "▀", "█", "█"]

/-- `unicode_map2`: right-column quadrant glyph for each 4-bit pattern. -/
def unicodeMap2 : List String :=
  [" ", "▄", " ", "▄", "▀", "█", "▀", "█", " ", "▄", " ", "▄", "▀", "█", "▀", "█"]

/-! ### Terminal actions and the color-pair registry -/

/-- One terminal-affecting operation: `init_pair`, `attron(COLOR_PAIR(..))`,
`mvaddstr`, `mvaddch`, or `refresh`. -/
inductive Action where
  | initPair (cp fgColor bgColor : Nat)
  | setColorPair (cp : Nat)
  | writeStr (row col : Nat) (s : String)
  | writeCh (row col : Nat) (c : Char)
  | refresh
deriving DecidableEq, Repr

/-- The color-pair id used by `init_mp1000_colors`: `(fg*16 + bg) + 1`. -/
def colorId (fg bg : Nat) : Nat := fg * 16 + bg + 1

/-- The `init_pair` calls issued by `init_mp1000_colors`, in loop order. -/
def initColorActions : List Action :=
  (List.range 16).flatMap fun fg =>
    (List.range 16).map fun bg =>
      Action.initPair (colorId fg bg) (colors.getD fg 0) (colors.getD bg 0)

/-- Recognizer for `init_pair` registrations. -/
def isInitPair : Action → Bool
  | Action.initPair _ _ _ => true
  | _ => false

/-- Recognizer for color-switch instructions. -/
def isSetColorPair : Action → Bool
  | Action.setColorPair _ => true
  | _ => false

/-- The color-pair ids registered by `init_mp1000_colors`, in order. -/
def registeredIds : List Nat :=
  initColorActions.filterMap fun a =>
    match a with
    | Action.initPair cp _ _ => some cp
    | _ => none

/-! ### The machine view (external emulation backend) -/

/-- Modelled from the spec: the emulated machine (CPU, chips and memory,
`systems/mp1000.h` and the `chips/` headers, which are not part of this
repository) as seen by the front-end: a read-only register snapshot plus
the CPU-bus and video-bus memory views. -/
structure Machine where
  pc : Nat
  sp : Nat
  a : Nat
  b : Nat
  ix : Nat
  ir : Nat
  cpuMem : Nat → Nat
  vdgMem : Nat → Nat

/-- `mem_rd`: a bus read takes a 16-bit address and returns one byte. -/
def memRd (mem : Nat → Nat) (addr : Nat) : Nat := mem (addr % 65536) % 256

/-- The all-zero machine view, used to instantiate universally quantified
claims at a concrete input. -/
def zeroMachine : Machine :=
  ⟨0, 0, 0, 0, 0, 0, fun _ => 0, fun _ => 0⟩

/-! ### The render pass (main, lines 176-264) -/

/-- Color pair chosen for one cell: graphics mode (bit 7 of the fetched
byte set) uses `16*fg + 0xF + 1` with `fg = (font_code >> 4) & 7`;
text mode uses `0xF0 + 1`. -/
def cellColorPair (fc : Nat) : Nat :=
  if fc &&& 128 ≠ 0 then 16 * ((fc >>> 4) &&& 7) + 0xF + 1
  else 0xF0 + 1

/-- Glyph writes for one cell at grid position `(yy, xx)`: graphics mode
writes the two quadrant glyphs indexed by `font_code & 0xF` into columns
`xx*2` and `xx*2+1`; text mode writes a blank and `font_map[font_code & 63]`. -/
def cellWrites (fc : Nat) (yy xx : Nat) : List Action :=
  if fc &&& 128 ≠ 0 then
    [Action.writeStr yy (xx * 2) (unicodeMap.getD (fc &&& 0xF) " "),
     Action.writeStr yy (xx * 2 + 1) (unicodeMap2.getD (fc &&& 0xF) " ")]
  else
    [Action.writeCh yy (xx * 2) ' ',
     Action.writeCh yy (xx * 2 + 1) (fontMap.getD (fc &&& 63) ' ')]

/-- The cell loop: for each remaining `(yy, xx)` position, fetch the byte at
`yy*32 + xx`, emit `attron(COLOR_PAIR(cp))` only when `cp` differs from the
tracked current pair (initialized to -1 before the loop), then emit the two
glyph writes. -/
def renderCells (vdg : Nat → Nat) : List (Nat × Nat) → Int → List Action
  | [], _ => []
  | (yy, xx) :: rest, cur =>
    let fc := memRd vdg (yy * 32 + xx)
    let cp := cellColorPair fc
    if (cp : Int) = cur then
      cellWrites fc yy xx ++ renderCells vdg rest cur
    else
      Action.setColorPair cp :: (cellWrites fc yy xx ++ renderCells vdg rest (cp : Int))

/-- Row-major traversal order of the fixed 16-row by 32-column grid. -/
def gridCells : List (Nat × Nat) :=
  (List.range 16).flatMap fun yy => (List.range 32).map fun xx => (yy, xx)

/-- The whole grid pass of one frame. -/
def renderGrid (vdg : Nat → Nat) : List Action :=
  renderCells vdg gridCells (-1)

/-- Lowercase hex rendering of one byte, `%02x`. -/
def hex2 (n : Nat) : String :=
  let s := Nat.toDigits 16 (n % 256)
  String.mk (List.replicate (2 - s.length) '0' ++ s)

/-- Lowercase hex rendering of one 16-bit word, `%04x`. -/
def hex4 (n : Nat) : String :=
  let s := Nat.toDigits 16 (n % 65536)
  String.mk (List.replicate (4 - s.length) '0' ++ s)

/-- Decimal rendering right-aligned in 4 columns, `%4d`. -/
def dec4 (n : Nat) : String :=
  let s := Nat.toDigits 10 n
  String.mk (List.replicate (4 - s.length) ' ' ++ s)

/-- An 8-byte hex dump line starting at `base`, `%02x` space separated. -/
def hexDump (m : Machine) (base : Nat) : String :=
  String.intercalate " " ((List.range 8).map fun i => hex2 (memRd m.cpuMem (base + i)))

/-- The debug overlay writes (main, lines 237-262): registers, the two bytes
above the stack pointer, the frame counter, and a 32-byte diagnostic window. -/
def debugActions (m : Machine) (frames : Nat) : List Action :=
  [Action.writeStr 4 80 ("PC: " ++ hex4 m.pc),
   Action.writeStr 5 80 ("SP: " ++ hex4 m.sp),
   Action.writeStr 6 80 ("[SP]: " ++ hex2 (memRd m.cpuMem (m.sp + 1)) ++ hex2 (memRd m.cpuMem (m.sp + 2))),
   Action.writeStr 7 80 ("A: " ++ hex2 m.a),
   Action.writeStr 8 80 ("B: " ++ hex2 m.b),
   Action.writeStr 9 80 ("X: " ++ hex4 m.ix),
   Action.writeStr 10 80 ("IR: " ++ hex4 m.ir),
   Action.writeStr 11 80 ("F: " ++ dec4 frames),
   Action.writeStr 13 80 (hexDump m 0xA400),
   Action.writeStr 14 80 (hexDump m 0xA408),
   Action.writeStr 15 80 (hexDump m 0xA410),
   Action.writeStr 16 80 (hexDump m 0xA418)]

/-- One full frame render: the grid pass, the debug overlay, then exactly
one `refresh`. -/
def renderFrame (m : Machine) (frames : Nat) : List Action :=
  renderGrid m.vdgMem ++ debugActions m frames ++ [Action.refresh]


/-- The expected write sequence of a blank text-mode frame: for every grid
cell, a blank into the left column and the glyph for character code 0 into
the right column. -/
def blankCellWrites : List Action :=
  gridCells.flatMap fun p => [Action.writeCh p.1 (p.2 * 2) ' ', Action.writeCh p.1 (p.2 * 2 + 1) '@']


/-! ### The main loop (main, lines 137-271) -/

/-- `FRAME_USEC`: the fixed pacing interval, 33333 microseconds for 30 fps. -/
def FRAME_USEC : Nat := 33333

/-- Modelled from the spec: `mp1000_exec` (external emulation backend, not
part of this repository) deterministically advances the machine by the
number of clock ticks in the elapsed microseconds at the 894750 Hz clock
rate named in the speed presets; 0 elapsed microseconds is 0 ticks. -/
def ticksForUsec (usec : Nat) : Nat := 894750 * usec / 1000000

/-- Modelled from the spec: executing the machine for `usec` microseconds
iterates its single-tick step `ticksForUsec usec` times. -/
def execMachine (step : Machine → Machine) (m : Machine) (usec : Nat) : Machine :=
  step^[ticksForUsec usec] m

/-- One observable event of the loop: a machine execute call, a key poll,
a machine key injection, a terminal action, the pacing sleep, or the
terminal-mode restore `endwin`. -/
inductive Ev where
  | exec (usec : Nat)
  | poll (input : Option Nat)
  | key (e : KeyEvent)
  | act (a : Action)
  | sleep (usec : Nat)
  | endwin
deriving DecidableEq, Repr

/-- Recognizer for the terminal-mode restore. -/
def isEndwin : Ev → Bool
  | Ev.endwin => true
  | _ => false

/-- Recognizer for machine execute calls (one per loop iteration). -/
def isExec : Ev → Bool
  | Ev.exec _ => true
  | _ => false

/-- Recognizer for key polls (one per loop iteration). -/
def isPoll : Ev → Bool
  | Ev.poll _ => true
  | _ => false

/-- Loop-carried state: the machine, the speed preset and the frame counter. -/
structure LoopState where
  machine : Machine
  speed : Nat
  frames : Nat

/-- One loop iteration: execute the machine for the current speed budget,
increment the frame counter, poll one key (updating the speed preset and
injecting press+release when accepted), render the frame, sleep the fixed
interval.  Returns the next state and the iteration's event trace. -/
def iterStep (step : Machine → Machine) (st : LoopState) (input : Option Nat) :
    LoopState × List Ev :=
  let m1 := execMachine step st.machine st.speed
  let frames1 := st.frames + 1
  let hk := handleKey input st.speed
  (⟨m1, hk.1, frames1⟩,
   Ev.exec st.speed :: Ev.poll input :: hk.2.map Ev.key
     ++ (renderFrame m1 frames1).map Ev.act ++ [Ev.sleep FRAME_USEC])

/-- The `while (!quit_requested)` loop with fuel: at check `i` the shutdown
flag is read; while it is clear one iteration runs with the `i`-th polled
input; when it is set the loop exits, `endwin` restores the terminal and
the process returns exit code 0. -/
def runFrom (step : Machine → Machine) (flag : Nat → Bool) (inputs : Nat → Option Nat) :
    Nat → Nat → LoopState → Option (List Ev × Nat)
  | 0, _, _ => none
  | fuel + 1, i, st =>
    if flag i then some ([Ev.endwin], 0)
    else
      let r := iterStep step st (inputs i)
      match runFrom step flag inputs fuel (i + 1) r.1 with
      | some p => some (r.2 ++ p.1, p.2)
      | none => none

/-! ### Helper lemmas about the input translation -/

theorem isLower_iff (c : Nat) : isLowerCode c = true ↔ 97 ≤ c ∧ c ≤ 122 := by
  simp [isLowerCode]

theorem isUpper_iff (c : Nat) : isUpperCode c = true ↔ 65 ≤ c ∧ c ≤ 90 := by
  simp [isUpperCode]

theorem isLetter_iff (c : Nat) :
    isLetterCode c = true ↔ (97 ≤ c ∧ c ≤ 122) ∨ (65 ≤ c ∧ c ≤ 90) := by
  simp [isLetterCode, isLower_iff, isUpper_iff]

theorem caseInvert_lower (c : Nat) (h1 : 97 ≤ c) (h2 : c ≤ 122) : caseInvert c = c - 32 := by
  have h : isLowerCode c = true := (isLower_iff c).mpr ⟨h1, h2⟩
  simp [caseInvert, h]

theorem caseInvert_upper (c : Nat) (h1 : 65 ≤ c) (h2 : c ≤ 90) : caseInvert c = c + 32 := by
  have hl : isLowerCode c = false := by
    rw [Bool.eq_false_iff]
    intro hh
    rw [isLower_iff] at hh
    omega
  have hu : isUpperCode c = true := (isUpper_iff c).mpr ⟨h1, h2⟩
  simp [caseInvert, hl, hu]

theorem ctrlMap_letter (c : Nat) (hc : isLetterCode c = true) : ctrlMap c = c := by
  rw [isLetter_iff] at hc
  unfold ctrlMap
  split_ifs <;> omega

theorem caseProcess_gt32 (c : Nat) (h : 32 < c) : caseProcess c = caseInvert c := by
  simp [caseProcess, h]

theorem translate_letter (c : Nat) (hc : isLetterCode c = true) :
    translate c = some (caseInvert c) := by
  have hm := ctrlMap_letter c hc
  rw [isLetter_iff] at hc
  have h32 : 32 < c := by omega
  have hb : caseInvert c < 256 := by
    rcases hc with ⟨h1, h2⟩ | ⟨h1, h2⟩
    · rw [caseInvert_lower c h1 h2]; omega
    · rw [caseInvert_upper c h1 h2]; omega
  unfold translate
  rw [hm, caseProcess_gt32 c h32, if_pos hb]

theorem caseInvert_involutive_letter (c : Nat) (hc : isLetterCode c = true) :
    caseInvert (caseInvert c) = c := by
  rw [isLetter_iff] at hc
  rcases hc with ⟨h1, h2⟩ | ⟨h1, h2⟩
  · rw [caseInvert_lower c h1 h2, caseInvert_upper (c - 32) (by omega) (by omega)]; omega
  · rw [caseInvert_upper c h1 h2, caseInvert_lower (c + 32) (by omega) (by omega)]; omega

theorem caseInvert_nonletter (c : Nat) (hc : isLetterCode c = false) : caseInvert c = c := by
  have h := hc
  simp only [isLetterCode, Bool.or_eq_false_iff] at h
  simp [caseInvert, h.1, h.2]

/-! ### Claim theorems about the input translation -/

/-- Claim C3: translate applies its rules in order — the fixed control-key
table first (ENTER 10 to 0x0D, BACKSPACE 127 to 0x01, ESCAPE 27 to 0x03,
LEFT 260 to 0x08, RIGHT 261 to 0x09, UP 259 to 0x0B, DOWN 258 to 0x0A),
then letter-case inversion for every code above 32 with non-letters
unchanged, and case inversion is involutive over all letters. -/
theorem translate_rule_order :
    (∀ c, isLetterCode c = true → translate c = some (caseInvert c)) ∧
    (∀ c, isLetterCode c = true → caseInvert (caseInvert c) = c) ∧
    (∀ c, isLetterCode c = false → caseInvert c = c) ∧
    translate 10 = some 0x0D ∧ translate 127 = some 0x01 ∧ translate 27 = some 0x03 ∧
    translate 260 = some 0x08 ∧ translate 261 = some 0x09 ∧ translate 259 = some 0x0B ∧
    translate 258 = some 0x0A ∧ translate 97 = some 65 ∧ translate 65 = some 97 :=
  ⟨translate_letter, caseInvert_involutive_letter, caseInvert_nonletter,
   by decide, by decide, by decide, by decide, by decide, by decide,
   by decide, by decide, by decide⟩

/-- Witness for C3 at the concrete codes 97 (lowercase a), 65 (uppercase A)
and 48 (the digit zero, a non-letter). -/
theorem translate_rule_order_witness :
    translate 97 = some (caseInvert 97) ∧ caseInvert (caseInvert 97) = 97 ∧
    caseInvert 48 = 48 :=
  ⟨translate_rule_order.1 97 (by decide), translate_rule_order.2.1 97 (by decide),
   translate_rule_order.2.2.1 48 (by decide)⟩

/-- Claim C2 counterexample: host code 260 (LEFT) is at least 256 yet is
translated to 0x08 and injected as a press-release pair, so translate does
not return none on every code at least 256. -/
theorem high_code_accepted_counterexample :
    256 ≤ 260 ∧ translate 260 = some 0x08 ∧
    injectEvents 260 = [KeyEvent.down 8, KeyEvent.up 8] := by decide

/-- Claim C2 (amended): every host key code at least 256 other than the four
arrow-key codes 258, 259, 260 and 261 is rejected — translate returns none
and no key press or release is injected for it. -/
theorem translate_rejects_high_codes (code : Nat) (h : 256 ≤ code)
    (h1 : code ≠ 258) (h2 : code ≠ 259) (h3 : code ≠ 260) (h4 : code ≠ 261) :
    translate code = none ∧ injectEvents code = [] := by
  have hm : ctrlMap code = code := by unfold ctrlMap; split_ifs <;> omega
  have hl : isLowerCode code = false := by
    rw [Bool.eq_false_iff]; intro hh; rw [isLower_iff] at hh; omega
  have hu : isUpperCode code = false := by
    rw [Bool.eq_false_iff]; intro hh; rw [isUpper_iff] at hh; omega
  have hcp : caseProcess code = code := by
    unfold caseProcess caseInvert
    simp [hl, hu]
  have ht : translate code = none := by
    unfold translate
    rw [hm, hcp, if_neg (by omega)]
  exact ⟨ht, by simp [injectEvents, ht]⟩

/-- Witness for the amended C2 at the concrete host code 256. -/
theorem translate_rejects_high_codes_witness :
    translate 256 = none ∧ injectEvents 256 = [] :=
  translate_rejects_high_codes 256 (by decide) (by decide) (by decide) (by decide) (by decide)

/-- Claim C10: the three speed keys (right bracket 93 for paused, apostrophe
39 for the native preset 2, slash 47 for the accelerated preset 33) reassign
the per-frame budget without being consumed: the unchanged code is still
case-processed and injected as a press-release pair in the same iteration. -/
theorem speed_keys_not_consumed (s : Nat) :
    handleKey (some 93) s = (0, [KeyEvent.down 93, KeyEvent.up 93]) ∧
    handleKey (some 39) s = (2, [KeyEvent.down 39, KeyEvent.up 39]) ∧
    handleKey (some 47) s = (33, [KeyEvent.down 47, KeyEvent.up 47]) :=
  ⟨rfl, rfl, rfl⟩

/-! ### Helper lemmas about the render pass -/

theorem cellWrites_no_initPair (fc yy xx : Nat) (a : Action)
    (h : a ∈ cellWrites fc yy xx) : isInitPair a = false := by
  unfold cellWrites at h
  split at h <;> simp at h <;> rcases h with h | h <;> subst h <;> rfl

theorem renderCells_no_initPair (vdg : Nat → Nat) (cells : List (Nat × Nat)) :
    ∀ (cur : Int) (a : Action), a ∈ renderCells vdg cells cur → isInitPair a = false := by
  induction cells with
  | nil => intro cur a h; simp [renderCells] at h
  | cons p rest ih =>
    intro cur a h
    obtain ⟨yy, xx⟩ := p
    simp only [renderCells] at h
    split at h
    · rcases List.mem_append.mp h with h | h
      · exact cellWrites_no_initPair _ _ _ _ h
      · exact ih _ _ h
    · rcases List.mem_cons.mp h with h | h
      · subst h; rfl
      · rcases List.mem_append.mp h with h | h
        · exact cellWrites_no_initPair _ _ _ _ h
        · exact ih _ _ h

theorem debugActions_no_initPair (m : Machine) (frames : Nat) (a : Action)
    (h : a ∈ debugActions m frames) : isInitPair a = false := by
  simp [debugActions] at h
  rcases h with h|h|h|h|h|h|h|h|h|h|h|h <;> subst h <;> rfl

theorem renderFrame_no_initPair (m : Machine) (frames : Nat) (a : Action)
    (h : a ∈ renderFrame m frames) : isInitPair a = false := by
  unfold renderFrame renderGrid at h
  rcases List.mem_append.mp h with h | h
  · rcases List.mem_append.mp h with h | h
    · exact renderCells_no_initPair _ _ _ _ h
    · exact debugActions_no_initPair _ _ _ h
  · rw [List.mem_singleton.mp h]; rfl

/-! ### Claim theorems about the palette and the glyph mapping -/

/-- Claim C6: the color-pair id fg*16+bg+1 is injective over the 16 by 16
domain, every id lies in 1..256, the startup build registers exactly the 256
ids 1..256 in order, and no action of a rendered frame is a pair
registration — the table is never modified after startup. -/
theorem colorId_registry_spec :
    (∀ fg bg fg2 bg2, fg < 16 → bg < 16 → fg2 < 16 → bg2 < 16 →
      colorId fg bg = colorId fg2 bg2 → fg = fg2 ∧ bg = bg2) ∧
    (∀ fg bg, fg < 16 → bg < 16 → 1 ≤ colorId fg bg ∧ colorId fg bg ≤ 256) ∧
    initColorActions.length = 256 ∧
    registeredIds = List.range' 1 256 ∧
    (∀ m frames a, a ∈ renderFrame m frames → isInitPair a = false) := by
  refine ⟨?_, ?_, by decide, by decide, renderFrame_no_initPair⟩
  · intro fg bg fg2 bg2 h1 h2 h3 h4 heq
    unfold colorId at heq
    omega
  · intro fg bg h1 h2
    unfold colorId
    omega

/-- Witness for C6: injectivity and the id range at the pair (3, 5), and the
no-registration fact at the final refresh action of a concrete frame. -/
theorem colorId_registry_spec_witness :
    (3 = 3 ∧ 5 = 5) ∧ (1 ≤ colorId 3 5 ∧ colorId 3 5 ≤ 256) ∧
    isInitPair Action.refresh = false :=
  ⟨colorId_registry_spec.1 3 5 3 5 (by decide) (by decide) (by decide) (by decide) rfl,
   colorId_registry_spec.2.1 3 5 (by decide) (by decide),
   colorId_registry_spec.2.2.2.2 zeroMachine 0 Action.refresh (by simp [renderFrame])⟩

/-- Claim C4: for a cell with attribute bit 7 set (graphics mode) the color
is id((attr shifted right by 4) masked to 3 bits, 15) and the two glyphs are
the fixed quadrant tables at index attr masked to 4 bits; pattern 0 yields
two blank glyphs and pattern 15 two full-block glyphs. -/
theorem graphics_mode_cell :
    (∀ fc yy xx, fc &&& 128 ≠ 0 →
      cellColorPair fc = colorId ((fc >>> 4) &&& 7) 15 ∧
      cellWrites fc yy xx =
        [Action.writeStr yy (xx * 2) (unicodeMap.getD (fc &&& 0xF) " "),
         Action.writeStr yy (xx * 2 + 1) (unicodeMap2.getD (fc &&& 0xF) " ")]) ∧
    (∀ fc yy xx, fc &&& 128 ≠ 0 → fc &&& 0xF = 0 →
      cellWrites fc yy xx =
        [Action.writeStr yy (xx * 2) " ", Action.writeStr yy (xx * 2 + 1) " "]) ∧
    (∀ fc yy xx, fc &&& 128 ≠ 0 → fc &&& 0xF = 15 →
      cellWrites fc yy xx =
        [Action.writeStr yy (xx * 2) "█", Action.writeStr yy (xx * 2 + 1) "█"]) := by
  refine ⟨?_, ?_, ?_⟩
  · intro fc yy xx h
    constructor
    · unfold cellColorPair colorId
      rw [if_pos h]
      generalize (fc >>> 4) &&& 7 = a
      omega
    · unfold cellWrites
      rw [if_pos h]
  · intro fc yy xx h h0
    unfold cellWrites
    rw [if_pos h, h0]
    rfl
  · intro fc yy xx h h15
    unfold cellWrites
    rw [if_pos h, h15]
    rfl

/-- Witness for C4 at the concrete attribute bytes 128 (graphics, pattern 0)
and 143 (graphics, pattern 15). -/
theorem graphics_mode_cell_witness :
    (cellColorPair 128 = colorId ((128 >>> 4) &&& 7) 15 ∧
     cellWrites 128 2 3 =
       [Action.writeStr 2 (3 * 2) (unicodeMap.getD (128 &&& 0xF) " "),
        Action.writeStr 2 (3 * 2 + 1) (unicodeMap2.getD (128 &&& 0xF) " ")]) ∧
    cellWrites 128 2 3 = [Action.writeStr 2 (3 * 2) " ", Action.writeStr 2 (3 * 2 + 1) " "] ∧
    cellWrites 143 2 3 = [Action.writeStr 2 (3 * 2) "█", Action.writeStr 2 (3 * 2 + 1) "█"] :=
  ⟨graphics_mode_cell.1 128 2 3 (by decide),
   graphics_mode_cell.2.1 128 2 3 (by decide) (by decide),
   graphics_mode_cell.2.2 143 2 3 (by decide) (by decide)⟩

/-- Claim C5 counterexample: the text-mode color pair of the blank cell
(character code 0) is 0xF0 + 1 = 241, which is id(15,0); it is not
id(15,15), which equals 256. -/
theorem text_mode_color_counterexample :
    (0 : Nat) &&& 128 = 0 ∧ cellColorPair 0 = 241 ∧ colorId 15 0 = 241 ∧
    colorId 15 15 = 256 ∧ cellColorPair 0 ≠ colorId 15 15 := by decide

/-- Claim C5 (amended): for a cell with attribute bit 7 clear (text mode)
the color is id(15,0) = 241 (not id(15,15)), the left glyph is a blank and
the right glyph is the fixed 64-entry font table at index character code
masked to 6 bits; code 0 yields the commercial at and the reserved currency
index 28 the pound placeholder. -/
theorem text_mode_cell :
    (∀ fc yy xx, fc &&& 128 = 0 →
      cellColorPair fc = colorId 15 0 ∧
      cellWrites fc yy xx =
        [Action.writeCh yy (xx * 2) ' ',
         Action.writeCh yy (xx * 2 + 1) (fontMap.getD (fc &&& 63) ' ')]) ∧
    fontMap.length = 64 ∧ fontMap.getD 0 ' ' = '@' ∧ fontMap.getD 28 ' ' = 'x' := by
  refine ⟨?_, by decide, by decide, by decide⟩
  intro fc yy xx h
  have h2 : ¬(fc &&& 128 ≠ 0) := fun hn => hn h
  constructor
  · unfold cellColorPair colorId
    rw [if_neg h2]
  · unfold cellWrites
    rw [if_neg h2]

/-- Witness for the amended C5 at the concrete character codes 0 and 28. -/
theorem text_mode_cell_witness :
    (cellColorPair 0 = colorId 15 0 ∧
     cellWrites 0 1 2 =
       [Action.writeCh 1 (2 * 2) ' ', Action.writeCh 1 (2 * 2 + 1) (fontMap.getD (0 &&& 63) ' ')]) ∧
    (cellColorPair 28 = colorId 15 0 ∧
     cellWrites 28 1 2 =
       [Action.writeCh 1 (2 * 2) ' ', Action.writeCh 1 (2 * 2 + 1) (fontMap.getD (28 &&& 63) ' ')]) :=
  ⟨text_mode_cell.1 0 1 2 (by decide), text_mode_cell.1 28 1 2 (by decide)⟩

/-! ### The blank-frame end-to-end property -/

theorem debug_no_setColorPair (m : Machine) (frames : Nat) :
    (debugActions m frames).countP isSetColorPair = 0 := by
  simp [debugActions, List.countP_cons, isSetColorPair]

theorem blank_writes_no_setColorPair : blankCellWrites.countP isSetColorPair = 0 := by decide

/-- Claim C1 counterexample: on the all-zero video memory the single color
switch of the grid pass selects pair 241, and id(15,15) is 256, not 241 —
the blank frame is not rendered under id(15,15). -/
theorem blank_frame_color_counterexample :
    renderGrid (fun _ => 0) = Action.setColorPair 241 :: blankCellWrites ∧
    colorId 15 15 ≠ 241 ∧ colorId 15 0 = 241 := by decide

/-- Claim C1 (amended): on a machine whose video memory is all zero (blank
text-mode screen) the grid pass emits one color switch, to id(15,0) = 241
rather than id(15,15), and then for each of the 32 by 16 = 512 cells writes
a blank and the commercial at into the cell's two adjacent columns; the
whole frame render emits exactly one color switch. -/
theorem blank_frame_render (m : Machine) (hv : ∀ addr, m.vdgMem addr = 0) (frames : Nat) :
    renderGrid m.vdgMem = Action.setColorPair (colorId 15 0) :: blankCellWrites ∧
    (renderFrame m frames).countP isSetColorPair = 1 ∧
    colorId 15 0 = 241 ∧ gridCells.length = 32 * 16 := by
  have hfun : m.vdgMem = fun _ => 0 := funext hv
  have hgrid : renderGrid m.vdgMem = Action.setColorPair (colorId 15 0) :: blankCellWrites := by
    rw [hfun]; decide
  refine ⟨hgrid, ?_, by decide, by decide⟩
  unfold renderFrame
  rw [List.countP_append, List.countP_append, hgrid, List.countP_cons,
    blank_writes_no_setColorPair, debug_no_setColorPair]
  simp [isSetColorPair]

/-- Witness for the amended C1 at the all-zero machine view. -/
theorem blank_frame_render_witness :
    renderGrid zeroMachine.vdgMem = Action.setColorPair (colorId 15 0) :: blankCellWrites ∧
    (renderFrame zeroMachine 0).countP isSetColorPair = 1 ∧
    colorId 15 0 = 241 ∧ gridCells.length = 32 * 16 :=
  blank_frame_render zeroMachine (fun _ => rfl) 0

/-! ### Helper lemmas about the loop trace -/

theorem countP_map_eq_zero {α β : Type} (f : α → β) (p : β → Bool)
    (hp : ∀ x, p (f x) = false) (l : List α) : (l.map f).countP p = 0 := by
  rw [List.countP_map]
  exact List.countP_eq_zero.mpr fun x _ => by simp [Function.comp, hp x]

theorem iter_trace_counts (step : Machine → Machine) (st : LoopState) (input : Option Nat) :
    ((iterStep step st input).2.countP isExec) = 1 ∧
    ((iterStep step st input).2.countP isPoll) = 1 ∧
    ((iterStep step st input).2.countP isEndwin) = 0 := by
  refine ⟨?_, ?_, ?_⟩ <;>
    simp [iterStep, List.countP_cons, List.countP_append,
      countP_map_eq_zero Ev.key isExec (fun _ => rfl),
      countP_map_eq_zero Ev.act isExec (fun _ => rfl),
      countP_map_eq_zero Ev.key isPoll (fun _ => rfl),
      countP_map_eq_zero Ev.act isPoll (fun _ => rfl),
      countP_map_eq_zero Ev.key isEndwin (fun _ => rfl),
      countP_map_eq_zero Ev.act isEndwin (fun _ => rfl),
      isExec, isPoll, isEndwin]

theorem getLast?_append_of_getLast? {α : Type} (l₁ l₂ : List α) (a : α)
    (h : l₂.getLast? = some a) : (l₁ ++ l₂).getLast? = some a := by
  have hne : l₂ ≠ [] := by intro hnil; rw [hnil] at h; simp at h
  rw [List.getLast?_append_of_ne_nil l₁ hne, h]

theorem runFrom_flag_from (step : Machine → Machine) (inputs : Nat → Option Nat) (v : Nat) :
    ∀ (fuel i : Nat) (st : LoopState), i ≤ v → v < i + fuel →
      ∃ tr, runFrom step (fun j => decide (v ≤ j)) inputs fuel i st = some (tr, 0) ∧
        tr.countP isEndwin = 1 ∧ tr.countP isExec = v - i ∧
        tr.getLast? = some Ev.endwin := by
  intro fuel
  induction fuel with
  | zero => intro i st h1 h2; omega
  | succ fuel ih =>
    intro i st h1 h2
    by_cases hv : v ≤ i
    · refine ⟨[Ev.endwin], ?_, by decide, ?_, by decide⟩
      · simp only [runFrom]
        rw [if_pos (by simpa using hv)]
      · simp [isExec]
        omega
    · obtain ⟨tr, htr, he, hx, hl⟩ :=
        ih (i + 1) (iterStep step st (inputs i)).1 (by omega) (by omega)
      refine ⟨(iterStep step st (inputs i)).2 ++ tr, ?_, ?_, ?_, ?_⟩
      · simp only [runFrom]
        rw [if_neg (by simpa using hv), htr]
      · rw [List.countP_append, (iter_trace_counts step st (inputs i)).2.2, he]
      · rw [List.countP_append, (iter_trace_counts step st (inputs i)).1, hx]
        omega
      · exact getLast?_append_of_getLast? _ _ _ hl

/-! ### Claim theorems about the loop -/

/-- Claim C7: when the shutdown flag reads set from check v on (it was
raised after check v-1 read it clear), the loop performs exactly the v
iterations before that check — so at most one full iteration, number v-1,
can postdate the raising of the flag — then restores the terminal exactly
once as the final event, and the process returns exit code 0. -/
theorem shutdown_bounded (step : Machine → Machine) (inputs : Nat → Option Nat)
    (v : Nat) (st : LoopState) :
    ∃ tr, runFrom step (fun j => decide (v ≤ j)) inputs (v + 1) 0 st = some (tr, 0) ∧
      tr.countP isEndwin = 1 ∧ tr.countP isExec = v ∧
      tr.getLast? = some Ev.endwin ∧
      ((Finset.range v).filter (fun i => v - 1 ≤ i)).card ≤ 1 := by
  obtain ⟨tr, h1, h2, h3, h4⟩ :=
    runFrom_flag_from step inputs v (v + 1) 0 st (by omega) (by omega)
  refine ⟨tr, h1, h2, by simpa using h3, h4, ?_⟩
  apply Finset.card_le_one.mpr
  intro a ha b hb
  simp [Finset.mem_filter, Finset.mem_range] at ha hb
  omega

/-- Claim C8: each loop iteration polls exactly one host key event, and the
machine key-event trace of the iteration is either empty or exactly a press
of the translated code immediately followed by its release — no key is left
held across iterations. -/
theorem key_press_release_pairing :
    (∀ input speed, (handleKey input speed).2 = [] ∨
      ∃ ch c, input = some ch ∧ translate ch = some c ∧
        (handleKey input speed).2 = [KeyEvent.down c, KeyEvent.up c]) ∧
    (∀ step st input, ((iterStep step st input).2.countP isPoll) = 1) := by
  constructor
  · intro input speed
    match input with
    | none => exact Or.inl rfl
    | some ch =>
      match h : translate ch with
      | some c => exact Or.inr ⟨ch, c, rfl, h, by simp [handleKey, injectEvents, h]⟩
      | none => exact Or.inl (by simp [handleKey, injectEvents, h])
  · intro step st input
    exact (iter_trace_counts step st input).2.1

/-- Claim C9: with the paused speed preset (budget 0) an iteration calls the
machine execute step with 0 elapsed microseconds and the machine state is
unchanged, while the key poll and the frame render (with its refresh) still
occur in that iteration. -/
theorem paused_iteration (step : Machine → Machine) (m : Machine) (frames : Nat)
    (input : Option Nat) :
    (iterStep step ⟨m, 0, frames⟩ input).1.machine = m ∧
    Ev.exec 0 ∈ (iterStep step ⟨m, 0, frames⟩ input).2 ∧
    Ev.poll input ∈ (iterStep step ⟨m, 0, frames⟩ input).2 ∧
    Ev.act Action.refresh ∈ (iterStep step ⟨m, 0, frames⟩ input).2 := by
  have hm : execMachine step m 0 = m := by simp [execMachine, ticksForUsec]
  refine ⟨by simp [iterStep, hm], by simp [iterStep], by simp [iterStep], ?_⟩
  simp [iterStep, renderFrame]

end MP1000Ascii
